import Mathlib

/-!
Shallow embedding of `src/survivalnet/analysis/FeatureAnalysis.py`.

The file models the `FeatureAnalysis` function (the FeatureRanker and
Orchestrator of the specification).  Collaborators (`RiskCohort`,
`_SplitSymbols`, `_WrapSymbols`, the renderers and the writers) are kept
abstract: the embedding records the exact arguments `FeatureAnalysis`
passes to each of them, and the file names it writes, which is what the
claims are about.  Real numbers model the floating point values of the
source.
-/

namespace SurvivalNet

/-- Python whitespace characters recognised by `str.strip()`:
space, tab, newline, vertical tab, form feed, carriage return. -/
def isPySpace (c : Char) : Bool :=
  c = ' ' || c = '\t' || c = '\n' || c = Char.ofNat 11 || c = Char.ofNat 12 || c = '\r'

/-- Python `s.strip()`: remove leading and trailing whitespace. -/
def pyStrip (s : String) : String :=
  String.mk (((s.data.dropWhile isPySpace).reverse.dropWhile isPySpace).reverse)

/-- Python slice `l[0:stop]` (with an `int` stop, as in `x[:, 0:N]` on the
second axis of a numpy array): a nonnegative stop clips to the length, a
negative stop counts from the end and clips at zero. -/
def pySlice {α : Type} (l : List α) (stop : Int) : List α :=
  if 0 ≤ stop then l.take stop.toNat else l.take (l.length - (-stop).toNat)

/-- Python list comprehension `[l[i] for i in np.arange(N)]`:
`np.arange N` is `[0, ..., N-1]` for positive `N` and empty otherwise;
`l[i]` raises `IndexError` (modelled by `none`) when `i ≥ len(l)`. -/
def pyCompSelect {α : Type} (l : List α) (N : Int) : Option (List α) :=
  if N ≤ 0 then some []
  else if N.toNat ≤ l.length then some (l.take N.toNat) else none

/-- Euclidean norm of sample row `i` of a samples × features matrix, as
computed by `np.linalg.norm(Gradients, axis=1)`. -/
noncomputable def rowNorm {m n : ℕ} (G : Fin m → Fin n → ℝ) (i : Fin m) : ℝ :=
  Real.sqrt (∑ j, (G i j) ^ 2)

/-- Line 70-71 of the source:
`Gradients / np.outer(np.linalg.norm(Gradients, axis=1), np.ones((1, n)))`,
elementwise division of every row by that row's L2 norm. -/
noncomputable def normalizeG {m n : ℕ} (G : Fin m → Fin n → ℝ) :
    Fin m → Fin n → ℝ :=
  fun i j => G i j / rowNorm G i

/-- Comparison realised by the stable ascending argsort of `-|s|`:
index `a` comes before `b` when `|s a| > |s b|`, with ties broken by the
original index order. -/
def rankRel {n : ℕ} (s : Fin n → ℝ) (a b : Fin n) : Prop :=
  |s b| < |s a| ∨ (|s a| = |s b| ∧ a ≤ b)

/-- Line 75 of the source, `Order = np.argsort(-np.abs(Means))`.
Modelling note: `np.argsort`'s default kind is introsort, whose tie
order is NOT stable in general; for arrays shorter than 17 elements
numpy dispatches to insertion sort, which is stable, so this
insertion-sort model agrees with the program on every concrete run in
this file (at most 5 features, and the tie-free runs agree under any
correct argsort).  No theorem below relies on the tie order of a run
with more than 16 features. -/
noncomputable def argsortAbsDesc {n : ℕ} (s : Fin n → ℝ) : List (Fin n) :=
  @List.insertionSort (Fin n) (rankRel s) (Classical.decRel _) (List.finRange n)

/-- Inputs of `FeatureAnalysis` (lines 13-15), together with the outputs
of the abstract collaborators computed before ranking:
`Gradients = RiskCohort(Model, Normalized)` (line 67) and
`Corrected, Types = _SplitSymbols(Symbols)`, `Wrapped = _WrapSymbols(Corrected)`
(lines 62-63). -/
structure FAArgs (m n : ℕ) where
  Gradients : Fin m → Fin n → ℝ
  Raw : Fin m → Fin n → ℝ
  Symbols : List String
  Corrected : List String
  Types : List String
  Wrapped : List String
  Survival : List ℝ
  Censored : List ℝ
  NBox : Int
  NScatter : Int
  NKM : Int
  NCluster : Int
  Path : Option String

/-- Lines 70-71: the reassigned (row-normalized) `Gradients`. -/
noncomputable def faNormGrad {m n : ℕ} (A : FAArgs m n) : Fin m → Fin n → ℝ :=
  normalizeG A.Gradients

/-- Line 74: `Means = np.asarray(np.mean(Gradients, axis=0))`, the
per-column arithmetic mean of the normalized gradients. -/
noncomputable def faMeans {m n : ℕ} (A : FAArgs m n) : Fin n → ℝ :=
  fun j => (∑ i, faNormGrad A i j) / (m : ℝ)

/-- Line 75: `Order = np.argsort(-np.abs(Means))`. -/
noncomputable def faOrder {m n : ℕ} (A : FAArgs m n) : List (Fin n) :=
  argsortAbsDesc (faMeans A)

/-- Line 76: `cSymbols = [Wrapped[i] for i in Order]` (the indices in
`Order` are always in range, so the `getD` default is never used). -/
noncomputable def facSymbols {m n : ℕ} (A : FAArgs m n) : List String :=
  (faOrder A).map (fun j => A.Wrapped.getD j.val "")

/-- Line 77: `cTypes = [Types[i] for i in Order]`. -/
noncomputable def facTypes {m n : ℕ} (A : FAArgs m n) : List String :=
  (faOrder A).map (fun j => A.Types.getD j.val "")

/-- Line 78: `cRaw = Raw[:, Order]`, row `i` of the column-permuted raw
feature matrix. -/
noncomputable def facRaw {m n : ℕ} (A : FAArgs m n) : Fin m → List ℝ :=
  fun i => (faOrder A).map (fun j => A.Raw i j)

/-- Line 79: `cGradients = Gradients[:, Order]`, row `i` of the
column-permuted normalized gradient matrix. -/
noncomputable def facGradients {m n : ℕ} (A : FAArgs m n) : Fin m → List ℝ :=
  fun i => (faOrder A).map (fun j => faNormGrad A i j)

/-- Lines 83-86: the arguments passed to the `RankedBox` renderer —
the gradient slice `cGradients[:, 0:NBox]` and the label and type lists
`[cSymbols[i] for i in np.arange(NBox)]`, `[cTypes[i] for i in np.arange(NBox)]`.
`none` models an `IndexError` raised while building a list. -/
noncomputable def faBoxCall {m n : ℕ} (A : FAArgs m n) :
    Option ((Fin m → List ℝ) × List String × List String) :=
  match pyCompSelect (facSymbols A) A.NBox, pyCompSelect (facTypes A) A.NBox with
  | some ls, some ts => some (fun i => pySlice (facGradients A i) A.NBox, ls, ts)
  | _, _ => none

/-- Lines 90-92: the arguments passed to the gradient `PairScatter`. -/
noncomputable def faScatterGradCall {m n : ℕ} (A : FAArgs m n) :
    Option ((Fin m → List ℝ) × List String × List String) :=
  match pyCompSelect (facSymbols A) A.NScatter,
        pyCompSelect (facTypes A) A.NScatter with
  | some ls, some ts =>
      some (fun i => pySlice (facGradients A i) A.NScatter, ls, ts)
  | _, _ => none

/-- Lines 96-98: the arguments passed to the feature `PairScatter`
(the raw matrix slice `cRaw[:, 0:NScatter]`). -/
noncomputable def faScatterFeatCall {m n : ℕ} (A : FAArgs m n) :
    Option ((Fin m → List ℝ) × List String × List String) :=
  match pyCompSelect (facSymbols A) A.NScatter,
        pyCompSelect (facTypes A) A.NScatter with
  | some ls, some ts =>
      some (fun i => pySlice (facRaw A i) A.NScatter, ls, ts)
  | _, _ => none

/-- Lines 102-105: the arguments passed to `RiskCluster` — gradient and
raw slices of width `NCluster` plus the truncated label and type lists. -/
noncomputable def faClusterCall {m n : ℕ} (A : FAArgs m n) :
    Option ((Fin m → List ℝ) × (Fin m → List ℝ) × List String × List String) :=
  match pyCompSelect (facSymbols A) A.NCluster,
        pyCompSelect (facTypes A) A.NCluster with
  | some ls, some ts =>
      some (fun i => pySlice (facGradients A i) A.NCluster,
            fun i => pySlice (facRaw A i) A.NCluster, ls, ts)
  | _, _ => none

/-- Lines 109-112: the arguments passed to `KMPlots` — gradient and raw
slices of width `NKM` plus the truncated label and type lists (the
`Survival` and `Censored` vectors are forwarded unchanged). -/
noncomputable def faKMCall {m n : ℕ} (A : FAArgs m n) :
    Option ((Fin m → List ℝ) × (Fin m → List ℝ) × List String × List String) :=
  match pyCompSelect (facSymbols A) A.NKM, pyCompSelect (facTypes A) A.NKM with
  | some ls, some ts =>
      some (fun i => pySlice (facGradients A i) A.NKM,
            fun i => pySlice (facRaw A i) A.NKM, ls, ts)
  | _, _ => none

/-- Line 127: `WriteRNK(Corrected, Means, Path + 'Gradients.rnk')` — the
label list and score vector handed to the rnk writer. -/
noncomputable def faRnkCall {m n : ℕ} (A : FAArgs m n) : List String × List ℝ :=
  (A.Corrected, (List.finRange n).map (faMeans A))

/-- Line 128: `WriteGCT(Corrected, None, Gradients, Path + 'Gradients.gct')`
— the label list and (row-normalized, line 70) gradient matrix handed to
the gct writer. -/
noncomputable def faGctCall {m n : ℕ} (A : FAArgs m n) :
    List String × (Fin m → List ℝ) :=
  (A.Corrected, fun i => (List.finRange n).map (faNormGrad A i))

/-- Lines 123-124: the Kaplan-Meier figure file names,
`Path + 'KM.' + Symbols[Order[i]].strip() + '.pdf'` for `i` below the
number `k` of figures returned by `KMPlots`. -/
noncomputable def faKMNames {m n : ℕ} (p : String) (A : FAArgs m n) (k : ℕ) :
    List String :=
  ((faOrder A).take k).map
    (fun j => p ++ "KM." ++ pyStrip (A.Symbols.getD j.val "") ++ ".pdf")

/-- Lines 116-128: every file written by the run, in write order; the
whole block is guarded by `if Path is not None`.  `k` is the number of
figures returned by the `KMPlots` collaborator. -/
noncomputable def faSavedFiles {m n : ℕ} (A : FAArgs m n) (k : ℕ) : List String :=
  match A.Path with
  | none => []
  | some p =>
      [p ++ "RankedBox.pdf", p ++ "PairedScatter.Gradient.pdf",
       p ++ "PairedScatter.Feature.pdf", p ++ "Heatmap.pdf"]
      ++ faKMNames p A k
      ++ [p ++ "Gradients.rnk", p ++ "Gradients.gct"]

/-! ### Basic facts about the ranking relation and the ordering -/

theorem perm_argsortAbsDesc {n : ℕ} (s : Fin n → ℝ) :
    (argsortAbsDesc s).Perm (List.finRange n) :=
  @List.perm_insertionSort (Fin n) (rankRel s) (Classical.decRel _) (List.finRange n)

theorem length_argsortAbsDesc {n : ℕ} (s : Fin n → ℝ) :
    (argsortAbsDesc s).length = n := by
  rw [(perm_argsortAbsDesc s).length_eq, List.length_finRange]

theorem length_faOrder {m n : ℕ} (A : FAArgs m n) : (faOrder A).length = n :=
  length_argsortAbsDesc _

theorem length_facSymbols {m n : ℕ} (A : FAArgs m n) :
    (facSymbols A).length = n := by
  rw [facSymbols, List.length_map, length_faOrder]

theorem length_facTypes {m n : ℕ} (A : FAArgs m n) :
    (facTypes A).length = n := by
  rw [facTypes, List.length_map, length_faOrder]

theorem length_facGradients {m n : ℕ} (A : FAArgs m n) (i : Fin m) :
    (facGradients A i).length = n := by
  rw [facGradients, List.length_map, length_faOrder]

theorem length_facRaw {m n : ℕ} (A : FAArgs m n) (i : Fin m) :
    (facRaw A i).length = n := by
  rw [facRaw, List.length_map, length_faOrder]

/-! ### Evaluation lemmas for the Python slice and comprehension models -/

theorem pyCompSelect_length {α : Type} (l : List α) :
    pyCompSelect l (l.length : Int) = some l := by
  unfold pyCompSelect
  rcases Nat.eq_zero_or_pos l.length with h | h
  · rw [if_pos (by simp [h])]
    rw [List.length_eq_zero.mp h]
  · rw [if_neg (by simp [Nat.pos_iff_ne_zero.mp h]), if_pos (by simp)]
    rw [Int.toNat_natCast, List.take_length]

theorem pyCompSelect_over {α : Type} (l : List α) :
    pyCompSelect l ((l.length : Int) + 1) = none := by
  unfold pyCompSelect
  rw [if_neg (by omega), if_neg (by omega)]

theorem pyCompSelect_neg_one {α : Type} (l : List α) :
    pyCompSelect l (-1) = some [] := by
  unfold pyCompSelect
  rw [if_pos (by norm_num)]

theorem pySlice_length {α : Type} (l : List α) :
    pySlice l (l.length : Int) = l := by
  unfold pySlice
  rw [if_pos (by positivity), Int.toNat_natCast, List.take_length]

theorem pySlice_neg_one {α : Type} (l : List α) :
    pySlice l (-1) = l.take (l.length - 1) := by
  unfold pySlice
  rw [if_neg (by norm_num)]
  norm_num

/-- A successful comprehension with `k < N` returns element `k` of the
underlying list at position `k`. -/
theorem pyCompSelect_getElem {α : Type} {l r : List α} {N : Int} {k : ℕ}
    (h : pyCompSelect l N = some r) (hk : (k : Int) < N) : r[k]? = l[k]? := by
  unfold pyCompSelect at h
  rw [if_neg (by omega)] at h
  by_cases h2 : N.toNat ≤ l.length
  · rw [if_pos h2] at h
    obtain rfl : r = l.take N.toNat := by injection h with h; exact h.symm
    exact List.getElem?_take_of_lt (by omega)
  · rw [if_neg h2] at h
    exact absurd h (by simp)

/-- A slice with `0 ≤ k < N` keeps element `k` in place. -/
theorem pySlice_getElem {α : Type} (l : List α) {N : Int} {k : ℕ}
    (hk : (k : Int) < N) : (pySlice l N)[k]? = l[k]? := by
  unfold pySlice
  rw [if_pos (by omega)]
  exact List.getElem?_take_of_lt (by omega)

theorem pyCompSelect_of_eq_length {α : Type} (l : List α) (N : Int)
    (h : N = (l.length : Int)) : pyCompSelect l N = some l := by
  rw [h]
  exact pyCompSelect_length l

theorem pyCompSelect_of_eq_length_add_one {α : Type} (l : List α) (N : Int)
    (h : N = (l.length : Int) + 1) : pyCompSelect l N = none := by
  rw [h]
  exact pyCompSelect_over l

theorem pySlice_of_eq_length {α : Type} (l : List α) (N : Int)
    (h : N = (l.length : Int)) : pySlice l N = l := by
  rw [h]
  exact pySlice_length l

/-! ### Claim theorems -/

/-- C6. `Normalize` scales each sample row by the inverse of its
Euclidean norm, and for every row whose norm is nonzero the normalized
row has L2 norm exactly 1 (the zero-norm row is the unguarded degenerate
case excluded by the hypothesis). -/
theorem normalize_unit_row_norm {m n : ℕ} (G : Fin m → Fin n → ℝ) (i : Fin m)
    (h : rowNorm G i ≠ 0) :
    (∀ j, normalizeG G i j = (rowNorm G i)⁻¹ * G i j)
    ∧ rowNorm (normalizeG G) i = 1 := by
  constructor
  · intro j
    rw [normalizeG, div_eq_inv_mul]
  · have hS : (0 : ℝ) ≤ ∑ j, (G i j) ^ 2 :=
      Finset.sum_nonneg fun _ _ => sq_nonneg _
    have hsq : (rowNorm G i) ^ 2 = ∑ j, (G i j) ^ 2 := Real.sq_sqrt hS
    have hsum : ∑ j, (normalizeG G i j) ^ 2 = 1 := by
      have : ∀ j : Fin n, (normalizeG G i j) ^ 2 = (G i j) ^ 2 / (rowNorm G i) ^ 2 := by
        intro j
        rw [normalizeG, div_pow]
      rw [Finset.sum_congr rfl fun j _ => this j, ← Finset.sum_div, ← hsq,
        div_self (pow_ne_zero 2 h)]
    rw [rowNorm, hsum, Real.sqrt_one]

/-- C6 witness at the 1 × 1 gradient matrix `[[1]]`: its single row
has norm `1 ≠ 0` and the normalized row has norm 1. -/
theorem normalize_unit_row_norm_witness :
    rowNorm (![![(1 : ℝ)]]) 0 ≠ 0
    ∧ rowNorm (normalizeG ![![(1 : ℝ)]]) 0 = 1 := by
  have h : rowNorm (![![(1 : ℝ)]]) 0 = 1 := by
    rw [rowNorm, Fin.sum_univ_one]
    norm_num
  exact ⟨by rw [h]; norm_num,
    (normalize_unit_row_norm ![![(1 : ℝ)]] 0 (by rw [h]; norm_num)).2⟩

/-- C7. `Score` returns, for every feature column, the arithmetic
mean of that column of the row-normalized gradient matrix across all
sample rows, with the sign preserved: no absolute value is taken (a
column of nonpositive normalized gradients has a nonpositive score). -/
theorem score_is_signed_column_mean {m n : ℕ} (A : FAArgs m n) (j : Fin n) :
    faMeans A j
      = (∑ i, A.Gradients i j / Real.sqrt (∑ l, (A.Gradients i l) ^ 2)) / (m : ℝ)
    ∧ ((∀ i, faNormGrad A i j ≤ 0) → faMeans A j ≤ 0) := by
  constructor
  · rfl
  · intro hle
    rw [faMeans]
    exact div_nonpos_of_nonpos_of_nonneg
      (Finset.sum_nonpos fun i _ => hle i) (Nat.cast_nonneg m)

/-! ### Concrete runs used by witnesses and counterexamples -/

/-- Sorting two indices when the first ranks below the second. -/
theorem argsortAbsDesc_two_swap (s : Fin 2 → ℝ) (h : ¬ rankRel s 0 1) :
    argsortAbsDesc s = [1, 0] := by
  unfold argsortAbsDesc
  rw [show List.finRange 2 = [0, 1] by decide]
  simp [List.insertionSort, List.orderedInsert, h]

/-- Sorting two indices when the first ranks at or above the second. -/
theorem argsortAbsDesc_two_keep (s : Fin 2 → ℝ) (h : rankRel s 0 1) :
    argsortAbsDesc s = [0, 1] := by
  unfold argsortAbsDesc
  rw [show List.finRange 2 = [0, 1] by decide]
  simp [List.insertionSort, List.orderedInsert, h]

/-- A 1-sample, 2-feature run with gradient row `[0, 1]`: the ordering
swaps the two features (feature 1 has the larger mean magnitude). -/
noncomputable def A1 : FAArgs 1 2 :=
  ⟨![![0, 1]], ![![5, 6]], ["a", "b"], ["a", "b"], ["ta", "tb"], ["a", "b"],
   [1], [0], 1, 1, 1, 1, some ""⟩

theorem A1_rowNorm : rowNorm (![![(0 : ℝ), 1]]) 0 = 1 := by
  rw [rowNorm, Fin.sum_univ_two]
  norm_num

theorem A1_means : faMeans A1 = ![0, 1] := by
  funext j
  fin_cases j <;>
    norm_num [faMeans, faNormGrad, normalizeG, A1_rowNorm, Fin.sum_univ_one, A1]

theorem A1_order : faOrder A1 = [1, 0] := by
  have h : faOrder A1 = argsortAbsDesc (faMeans A1) := rfl
  rw [h, A1_means]
  refine argsortAbsDesc_two_swap _ ?_
  norm_num [rankRel]

theorem A1_symbols : facSymbols A1 = ["b", "a"] := by
  have h : facSymbols A1 = (faOrder A1).map (fun j => A1.Wrapped.getD j.val "") := rfl
  rw [h, A1_order]
  rfl

theorem A1_types : facTypes A1 = ["tb", "ta"] := by
  have h : facTypes A1 = (faOrder A1).map (fun j => A1.Types.getD j.val "") := rfl
  rw [h, A1_order]
  rfl

/-- C7 witness at run `A1`, column 0: every normalized gradient in
the column is nonpositive and the score is nonpositive. -/
theorem score_is_signed_column_mean_witness :
    (∀ i, faNormGrad A1 i (0 : Fin 2) ≤ 0) ∧ faMeans A1 (0 : Fin 2) ≤ 0 := by
  have h : ∀ i, faNormGrad A1 i (0 : Fin 2) ≤ 0 := by
    intro i
    fin_cases i
    norm_num [faNormGrad, normalizeG, A1_rowNorm, A1]
  exact ⟨h, (score_is_signed_column_mean A1 0).2 h⟩

/-- C3 (amended). Truncation boundary as implemented: a count equal
to the feature count succeeds and passes every ranked feature to the
renderer; a count of featureCount + 1 raises an `IndexError` while the
label list is built (there is no `ConfigurationError` in the code); and
a count of `-1` raises nothing at all — the renderer silently receives
all but the last ranked column and empty label and type lists. -/
theorem truncation_boundary {m n : ℕ} (A B C : FAArgs m n)
    (hA : A.NBox = (n : Int) ∧ A.NScatter = (n : Int)
      ∧ A.NKM = (n : Int) ∧ A.NCluster = (n : Int))
    (hB : B.NBox = (n : Int) + 1 ∧ B.NScatter = (n : Int) + 1
      ∧ B.NKM = (n : Int) + 1 ∧ B.NCluster = (n : Int) + 1)
    (hC : C.NBox = -1 ∧ C.NScatter = -1 ∧ C.NKM = -1 ∧ C.NCluster = -1) :
    (faBoxCall A = some (facGradients A, facSymbols A, facTypes A)
      ∧ faScatterGradCall A = some (facGradients A, facSymbols A, facTypes A)
      ∧ faScatterFeatCall A = some (facRaw A, facSymbols A, facTypes A)
      ∧ faClusterCall A = some (facGradients A, facRaw A, facSymbols A, facTypes A)
      ∧ faKMCall A = some (facGradients A, facRaw A, facSymbols A, facTypes A))
    ∧ (faBoxCall B = none ∧ faScatterGradCall B = none
      ∧ faScatterFeatCall B = none ∧ faClusterCall B = none ∧ faKMCall B = none)
    ∧ (faBoxCall C = some ((fun i => (facGradients C i).take (n - 1)), [], [])
      ∧ faScatterGradCall C = some ((fun i => (facGradients C i).take (n - 1)), [], [])
      ∧ faScatterFeatCall C = some ((fun i => (facRaw C i).take (n - 1)), [], [])
      ∧ faClusterCall C = some ((fun i => (facGradients C i).take (n - 1)),
          (fun i => (facRaw C i).take (n - 1)), [], [])
      ∧ faKMCall C = some ((fun i => (facGradients C i).take (n - 1)),
          (fun i => (facRaw C i).take (n - 1)), [], [])) := by
  obtain ⟨hA1, hA2, hA3, hA4⟩ := hA
  obtain ⟨hB1, hB2, hB3, hB4⟩ := hB
  obtain ⟨hC1, hC2, hC3, hC4⟩ := hC
  have sA : ∀ N : Int, N = (n : Int) →
      pyCompSelect (facSymbols A) N = some (facSymbols A) := fun N h =>
    pyCompSelect_of_eq_length _ _ (by rw [length_facSymbols]; exact h)
  have tA : ∀ N : Int, N = (n : Int) →
      pyCompSelect (facTypes A) N = some (facTypes A) := fun N h =>
    pyCompSelect_of_eq_length _ _ (by rw [length_facTypes]; exact h)
  have gA : ∀ N : Int, N = (n : Int) →
      (fun i => pySlice (facGradients A i) N) = facGradients A := by
    intro N h
    funext i
    exact pySlice_of_eq_length _ _ (by rw [length_facGradients]; exact h)
  have rA : ∀ N : Int, N = (n : Int) →
      (fun i => pySlice (facRaw A i) N) = facRaw A := by
    intro N h
    funext i
    exact pySlice_of_eq_length _ _ (by rw [length_facRaw]; exact h)
  have sB : ∀ N : Int, N = (n : Int) + 1 →
      pyCompSelect (facSymbols B) N = none := fun N h =>
    pyCompSelect_of_eq_length_add_one _ _ (by rw [length_facSymbols]; exact h)
  have sC : pyCompSelect (facSymbols C) (-1) = some [] := pyCompSelect_neg_one _
  have tC : pyCompSelect (facTypes C) (-1) = some [] := pyCompSelect_neg_one _
  have gC : (fun i => pySlice (facGradients C i) (-1))
      = fun i => (facGradients C i).take (n - 1) := by
    funext i
    rw [pySlice_neg_one, length_facGradients]
  have rC : (fun i => pySlice (facRaw C i) (-1))
      = fun i => (facRaw C i).take (n - 1) := by
    funext i
    rw [pySlice_neg_one, length_facRaw]
  refine ⟨⟨?_, ?_, ?_, ?_, ?_⟩, ⟨?_, ?_, ?_, ?_, ?_⟩, ⟨?_, ?_, ?_, ?_, ?_⟩⟩
  · simp only [faBoxCall, sA _ hA1, tA _ hA1, gA _ hA1]
  · simp only [faScatterGradCall, sA _ hA2, tA _ hA2, gA _ hA2]
  · simp only [faScatterFeatCall, sA _ hA2, tA _ hA2, rA _ hA2]
  · simp only [faClusterCall, sA _ hA4, tA _ hA4, gA _ hA4, rA _ hA4]
  · simp only [faKMCall, sA _ hA3, tA _ hA3, gA _ hA3, rA _ hA3]
  · simp only [faBoxCall, sB _ hB1]
  · simp only [faScatterGradCall, sB _ hB2]
  · simp only [faScatterFeatCall, sB _ hB2]
  · simp only [faClusterCall, sB _ hB4]
  · simp only [faKMCall, sB _ hB3]
  · simp only [faBoxCall, hC1, sC, tC, gC]
  · simp only [faScatterGradCall, hC2, sC, tC, gC]
  · simp only [faScatterFeatCall, hC2, sC, tC, rC]
  · simp only [faClusterCall, hC4, sC, tC, gC, rC]
  · simp only [faKMCall, hC3, sC, tC, gC, rC]

/-- A run identical to `A1` except every truncation count is `-1`. -/
noncomputable def A2 : FAArgs 1 2 :=
  ⟨![![0, 1]], ![![5, 6]], ["a", "b"], ["a", "b"], ["ta", "tb"], ["a", "b"],
   [1], [0], -1, -1, -1, -1, some ""⟩

/-- A run identical to `A1` except every truncation count is the feature
count 2. -/
noncomputable def A3n : FAArgs 1 2 :=
  ⟨![![0, 1]], ![![5, 6]], ["a", "b"], ["a", "b"], ["ta", "tb"], ["a", "b"],
   [1], [0], 2, 2, 2, 2, some ""⟩

/-- A run identical to `A1` except every truncation count is 3, one more
than the feature count. -/
noncomputable def A3o : FAArgs 1 2 :=
  ⟨![![0, 1]], ![![5, 6]], ["a", "b"], ["a", "b"], ["ta", "tb"], ["a", "b"],
   [1], [0], 3, 3, 3, 3, some ""⟩

/-- C3 witness: the three boundary counts at a concrete 1 × 2 run. -/
theorem truncation_boundary_witness :
    (A3n.NBox = (2 : Int) ∧ A3o.NBox = (2 : Int) + 1 ∧ A2.NBox = -1)
    ∧ faBoxCall A3n = some (facGradients A3n, facSymbols A3n, facTypes A3n)
    ∧ faBoxCall A3o = none
    ∧ faBoxCall A2 = some ((fun i => (facGradients A2 i).take (2 - 1)), [], []) := by
  have h := truncation_boundary A3n A3o A2 ⟨rfl, rfl, rfl, rfl⟩
    ⟨by norm_num [A3o], by norm_num [A3o], by norm_num [A3o], by norm_num [A3o]⟩
    ⟨rfl, rfl, rfl, rfl⟩
  exact ⟨⟨rfl, by norm_num [A3o], rfl⟩, h.1.1, h.2.1.1, h.2.2.1⟩

/-- C3 counterexample: with `NBox = -1` on a 1 × 2 run no error of
any kind is raised — the `RankedBox` invocation succeeds, receiving one
gradient column and empty label and type lists, contradicting the
claimed `ConfigurationError` for a negative truncation count. -/
theorem truncation_neg_one_no_error :
    faBoxCall A2 = some ((fun i => (facGradients A2 i).take 1), [], [])
    ∧ (faBoxCall A2).isSome = true := by
  have hg : (fun i => pySlice (facGradients A2 i) (-1))
      = fun i => (facGradients A2 i).take 1 := by
    funext i
    rw [pySlice_neg_one, length_facGradients]
  have h : faBoxCall A2 = some ((fun i => (facGradients A2 i).take 1), [], []) := by
    simp only [faBoxCall, show A2.NBox = (-1 : Int) from rfl,
      pyCompSelect_neg_one, hg]
  exact ⟨h, by rw [h]; rfl⟩

theorem pyCompSelect_pos_le {α : Type} (l : List α) {N : Int} (h0 : 0 < N)
    (hle : N ≤ (l.length : Int)) :
    pyCompSelect l N = some (l.take N.toNat) := by
  unfold pyCompSelect
  rw [if_neg (by omega), if_pos (by omega)]

/-- C2 (amended). Cross-output consistency across the five
visualizations: whenever rank `k` lies below every truncation count, the
feature at rank `k` has the same display label, type tag, raw column and
gradient column in the ranked boxplot, both paired scatter plots, the
cluster analysis and the Kaplan-Meier plots — all slices are drawn from
the single reordered dataset `cSymbols`/`cTypes`/`cRaw`/`cGradients`.
(The two exporters are NOT consistent with these: see the C1 and C2
counterexamples — they receive unpermuted data.) -/
theorem cross_visualization_consistency {m n : ℕ} (A : FAArgs m n) (k : ℕ)
    (hbox : (k : Int) < A.NBox) (hsc : (k : Int) < A.NScatter)
    (hkm : (k : Int) < A.NKM) (hcl : (k : Int) < A.NCluster)
    (hbn : A.NBox ≤ (n : Int)) (hsn : A.NScatter ≤ (n : Int))
    (hkn : A.NKM ≤ (n : Int)) (hcn : A.NCluster ≤ (n : Int)) :
    ((faBoxCall A).map (fun B => B.2.1[k]?) = some ((facSymbols A)[k]?)
      ∧ (faScatterGradCall A).map (fun B => B.2.1[k]?) = some ((facSymbols A)[k]?)
      ∧ (faScatterFeatCall A).map (fun B => B.2.1[k]?) = some ((facSymbols A)[k]?)
      ∧ (faClusterCall A).map (fun B => B.2.2.1[k]?) = some ((facSymbols A)[k]?)
      ∧ (faKMCall A).map (fun B => B.2.2.1[k]?) = some ((facSymbols A)[k]?))
    ∧ ((faBoxCall A).map (fun B => B.2.2[k]?) = some ((facTypes A)[k]?)
      ∧ (faScatterGradCall A).map (fun B => B.2.2[k]?) = some ((facTypes A)[k]?)
      ∧ (faScatterFeatCall A).map (fun B => B.2.2[k]?) = some ((facTypes A)[k]?)
      ∧ (faClusterCall A).map (fun B => B.2.2.2[k]?) = some ((facTypes A)[k]?)
      ∧ (faKMCall A).map (fun B => B.2.2.2[k]?) = some ((facTypes A)[k]?))
    ∧ (∀ i, (faBoxCall A).map (fun B => (B.1 i)[k]?) = some ((facGradients A i)[k]?)
      ∧ (faScatterGradCall A).map (fun B => (B.1 i)[k]?) = some ((facGradients A i)[k]?)
      ∧ (faClusterCall A).map (fun B => (B.1 i)[k]?) = some ((facGradients A i)[k]?)
      ∧ (faKMCall A).map (fun B => (B.1 i)[k]?) = some ((facGradients A i)[k]?))
    ∧ (∀ i, (faScatterFeatCall A).map (fun B => (B.1 i)[k]?) = some ((facRaw A i)[k]?)
      ∧ (faClusterCall A).map (fun B => (B.2.1 i)[k]?) = some ((facRaw A i)[k]?)
      ∧ (faKMCall A).map (fun B => (B.2.1 i)[k]?) = some ((facRaw A i)[k]?)) := by
  have hsb : pyCompSelect (facSymbols A) A.NBox
      = some ((facSymbols A).take A.NBox.toNat) :=
    pyCompSelect_pos_le _ (by omega) (by rw [length_facSymbols]; omega)
  have htb : pyCompSelect (facTypes A) A.NBox
      = some ((facTypes A).take A.NBox.toNat) :=
    pyCompSelect_pos_le _ (by omega) (by rw [length_facTypes]; omega)
  have hss : pyCompSelect (facSymbols A) A.NScatter
      = some ((facSymbols A).take A.NScatter.toNat) :=
    pyCompSelect_pos_le _ (by omega) (by rw [length_facSymbols]; omega)
  have hts : pyCompSelect (facTypes A) A.NScatter
      = some ((facTypes A).take A.NScatter.toNat) :=
    pyCompSelect_pos_le _ (by omega) (by rw [length_facTypes]; omega)
  have hsk : pyCompSelect (facSymbols A) A.NKM
      = some ((facSymbols A).take A.NKM.toNat) :=
    pyCompSelect_pos_le _ (by omega) (by rw [length_facSymbols]; omega)
  have htk : pyCompSelect (facTypes A) A.NKM
      = some ((facTypes A).take A.NKM.toNat) :=
    pyCompSelect_pos_le _ (by omega) (by rw [length_facTypes]; omega)
  have hsc2 : pyCompSelect (facSymbols A) A.NCluster
      = some ((facSymbols A).take A.NCluster.toNat) :=
    pyCompSelect_pos_le _ (by omega) (by rw [length_facSymbols]; omega)
  have htc : pyCompSelect (facTypes A) A.NCluster
      = some ((facTypes A).take A.NCluster.toNat) :=
    pyCompSelect_pos_le _ (by omega) (by rw [length_facTypes]; omega)
  refine ⟨⟨?_, ?_, ?_, ?_, ?_⟩, ⟨?_, ?_, ?_, ?_, ?_⟩,
    fun i => ⟨?_, ?_, ?_, ?_⟩, fun i => ⟨?_, ?_, ?_⟩⟩ <;>
    simp only [faBoxCall, faScatterGradCall, faScatterFeatCall, faClusterCall,
      faKMCall, hsb, htb, hss, hts, hsk, htk, hsc2, htc, Option.map_some'] <;>
    first
      | exact congrArg some (List.getElem?_take_of_lt (by omega))
      | exact congrArg some (pySlice_getElem _ (by omega))

/-- C2 witness at run `A1`, rank 0: the boxplot and the
Kaplan-Meier renderer see the same display label there. -/
theorem cross_visualization_consistency_witness :
    (((0 : ℕ) : Int) < A1.NBox ∧ A1.NBox ≤ ((2 : ℕ) : Int))
    ∧ (faBoxCall A1).map (fun B => B.2.1[0]?) = some ((facSymbols A1)[0]?)
    ∧ (faKMCall A1).map (fun B => B.2.2.1[0]?) = some ((facSymbols A1)[0]?) := by
  have h := cross_visualization_consistency A1 0 (by decide) (by decide)
    (by decide) (by decide) (by decide) (by decide) (by decide) (by decide)
  exact ⟨⟨by decide, by decide⟩, h.1.1, h.1.2.2.2.2⟩

theorem finRange_map_getElem? {n : ℕ} {α : Type} (f : Fin n → α) (j : Fin n) :
    ((List.finRange n).map f)[(j : ℕ)]? = some (f j) := by
  rw [← List.ofFn_eq_map, List.getElem?_ofFn, List.ofFnNthVal, dif_pos j.isLt]

/-- Dataset the specification says the exporters receive: importance
scores permuted by the canonical Ordering.  Modelled from the spec (`the
full, untruncated dataset reordered by that canonical ordering`), for
comparison with `faRnkCall`, which is what the source actually passes. -/
noncomputable def specOrderedScores {m n : ℕ} (A : FAArgs m n) : List ℝ :=
  (faOrder A).map (faMeans A)

/-- C1 (amended). Both exporters are invoked with the full,
untruncated dataset in the ORIGINAL (unranked) column order: the rnk
writer receives the corrected label list and the unpermuted per-feature
mean scores, and the gct writer receives the corrected label list and
the unpermuted row-normalized gradient matrix.  The Ordering is not
applied to any exporter argument. -/
theorem exporters_receive_full_unordered_data {m n : ℕ} (A : FAArgs m n) :
    (faRnkCall A).1 = A.Corrected
    ∧ ((faRnkCall A).2).length = n
    ∧ (∀ j : Fin n, (faRnkCall A).2[(j : ℕ)]?
        = some ((∑ i, A.Gradients i j / Real.sqrt (∑ l, (A.Gradients i l) ^ 2)) / (m : ℝ)))
    ∧ (faGctCall A).1 = A.Corrected
    ∧ (∀ i, ((faGctCall A).2 i).length = n)
    ∧ (∀ i, ∀ j : Fin n, ((faGctCall A).2 i)[(j : ℕ)]?
        = some (A.Gradients i j / Real.sqrt (∑ l, (A.Gradients i l) ^ 2))) := by
  refine ⟨rfl, ?_, ?_, rfl, ?_, ?_⟩
  · rw [faRnkCall, List.length_map, List.length_finRange]
  · intro j
    exact finRange_map_getElem? (faMeans A) j
  · intro i
    rw [faGctCall, List.length_map, List.length_finRange]
  · intro i j
    exact finRange_map_getElem? (faNormGrad A i) j

theorem A1_normGrad_zero : faNormGrad A1 0 0 = 0 := by
  norm_num [faNormGrad, normalizeG, A1_rowNorm, A1]

theorem A1_normGrad_one : faNormGrad A1 0 1 = 1 := by
  norm_num [faNormGrad, normalizeG, A1_rowNorm, A1]

/-- C1 counterexample at run `A1` (gradient row `[0, 1]`, ordering
`[1, 0]`): the rnk writer receives the scores `[0, 1]` in original
column order, not the Ordering-permuted scores `[1, 0]`. -/
theorem exporters_not_reordered :
    (faRnkCall A1).2 = [0, 1]
    ∧ specOrderedScores A1 = [1, 0]
    ∧ (faRnkCall A1).2 ≠ specOrderedScores A1 := by
  have h1 : (faRnkCall A1).2 = [0, 1] := by
    show (List.finRange 2).map (faMeans A1) = [0, 1]
    rw [show List.finRange 2 = [0, 1] by decide, A1_means]
    norm_num
  have h2 : specOrderedScores A1 = [1, 0] := by
    rw [specOrderedScores, A1_order, A1_means]
    norm_num
  refine ⟨h1, h2, ?_⟩
  rw [h1, h2]
  intro h
  have h0 := List.head_eq_of_cons_eq h
  norm_num at h0

/-- C2 counterexample at run `A1`: the gct export's data at position
0 (label and gradient value) differs from the canonical reordered
dataset at rank 0, so the export does not draw its slice from the single
reordered dataset. -/
theorem export_breaks_rank_consistency :
    ((faGctCall A1).2 0)[0]? = some 0
    ∧ (facGradients A1 0)[0]? = some 1
    ∧ ((faGctCall A1).2 0)[0]? ≠ (facGradients A1 0)[0]?
    ∧ ((faGctCall A1).1)[0]? = some "a"
    ∧ (facSymbols A1)[0]? = some "b" := by
  have h1 : ((faGctCall A1).2 0)[0]? = some 0 := by
    show ((List.finRange 2).map (faNormGrad A1 0))[0]? = some 0
    rw [show List.finRange 2 = [0, 1] by decide]
    simp [A1_normGrad_zero]
  have h2 : (facGradients A1 0)[0]? = some 1 := by
    show ((faOrder A1).map (fun j => faNormGrad A1 0 j))[0]? = some 1
    rw [A1_order]
    simp [A1_normGrad_one]
  refine ⟨h1, h2, ?_, rfl, ?_⟩
  · rw [h1, h2]
    intro h
    have h0 : (0 : ℝ) = 1 := by injection h
    norm_num at h0
  · rw [A1_symbols]
    rfl

/-- C9. When the output path is absent, the run persists nothing: no
figure is saved and no table file is written (every write in the source
sits under `if Path is not None`). -/
theorem no_path_no_persistence {m n : ℕ} (A : FAArgs m n) (k : ℕ)
    (h : A.Path = none) : faSavedFiles A k = [] := by
  rw [faSavedFiles, h]

/-- A run identical to `A1` but with no output path. -/
noncomputable def A9 : FAArgs 1 2 :=
  ⟨![![0, 1]], ![![5, 6]], ["a", "b"], ["a", "b"], ["ta", "tb"], ["a", "b"],
   [1], [0], 1, 1, 1, 1, none⟩

/-- C9 witness: the concrete run `A9` with `Path = none` writes no
file. -/
theorem no_path_no_persistence_witness :
    A9.Path = none ∧ faSavedFiles A9 3 = [] :=
  ⟨rfl, no_path_no_persistence A9 3 rfl⟩

/-- Element `i` of the Kaplan-Meier file-name list, when rank `i` holds
original column `j`. -/
theorem faKMNames_getElem? {m n : ℕ} (p : String) (A : FAArgs m n) (k i : ℕ)
    (j : Fin n) (hik : i < k) (hj : (faOrder A)[i]? = some j) :
    (faKMNames p A k)[i]?
      = some (p ++ "KM." ++ pyStrip (A.Symbols.getD j.val "") ++ ".pdf") := by
  rw [faKMNames, List.getElem?_map, List.getElem?_take_of_lt hik, hj]
  rfl

theorem length_faKMNames {m n : ℕ} (p : String) (A : FAArgs m n) (k : ℕ) :
    (faKMNames p A k).length = min k n := by
  rw [faKMNames, List.length_map, List.length_take, length_faOrder]

/-- C8. With an output path, the Kaplan-Meier figure at ranked
position `i` is persisted under `Path + 'KM.' + s + '.pdf'` where `s` is
the original (untruncated, unwrapped) input label at index `Order[i]`
with surrounding whitespace stripped; display wrapping never enters the
file name. -/
theorem km_figure_file_name {m n : ℕ} (A : FAArgs m n) (p : String) (k i : ℕ)
    (j : Fin n) (hik : i < k) (hj : (faOrder A)[i]? = some j) :
    (faKMNames p A k)[i]?
      = some (p ++ "KM." ++ pyStrip (A.Symbols.getD j.val "") ++ ".pdf")
    ∧ (A.Path = some p →
        (p ++ "KM." ++ pyStrip (A.Symbols.getD j.val "") ++ ".pdf")
          ∈ faSavedFiles A k) := by
  refine ⟨faKMNames_getElem? p A k i j hik hj, fun hp => ?_⟩
  rw [faSavedFiles, hp]
  refine List.mem_append.mpr (Or.inl (List.mem_append.mpr (Or.inr ?_)))
  exact List.getElem?_mem (faKMNames_getElem? p A k i j hik hj)

theorem rowNorm_grad10 : rowNorm (![![(1 : ℝ), 0]]) 0 = 1 := by
  rw [rowNorm, Fin.sum_univ_two]
  norm_num

/-- Any 1 × 2 run whose gradient row is `[1, 0]` keeps the original
feature order. -/
theorem order_grad10 {A : FAArgs 1 2} (h : A.Gradients = ![![(1 : ℝ), 0]]) :
    faOrder A = [0, 1] := by
  have hm : faMeans A = ![1, 0] := by
    funext j
    fin_cases j <;>
      norm_num [faMeans, faNormGrad, normalizeG, h, rowNorm_grad10,
        Fin.sum_univ_one]
  rw [show faOrder A = argsortAbsDesc (faMeans A) from rfl, hm]
  refine argsortAbsDesc_two_keep _ ?_
  norm_num [rankRel]

/-- A 1 × 2 run whose first original label is `"  TP53  "` and whose
first feature ranks first. -/
noncomputable def A8 : FAArgs 1 2 :=
  ⟨![![1, 0]], ![![5, 6]], ["  TP53  ", "x"], ["TP53", "x"], ["ta", "tb"],
   ["TP53", "x"], [1], [0], 1, 1, 1, 1, some ""⟩

theorem A8_order : faOrder A8 = [0, 1] := order_grad10 rfl

/-- C8 witness: original label `"  TP53  "` at rank 0 yields the
persisted file name `KM.TP53.pdf`. -/
theorem km_figure_file_name_witness :
    (faOrder A8)[0]? = some 0 ∧ (0 : ℕ) < 1 ∧ A8.Path = some ""
    ∧ (faKMNames "" A8 1)[0]? = some "KM.TP53.pdf"
    ∧ "KM.TP53.pdf" ∈ faSavedFiles A8 1 := by
  have hj : (faOrder A8)[0]? = some 0 := by rw [A8_order]; rfl
  have h := km_figure_file_name A8 "" 1 0 0 (by norm_num) hj
  have hs : ("" ++ "KM." ++ pyStrip (A8.Symbols.getD (0 : Fin 2).val "") ++ ".pdf")
      = "KM.TP53.pdf" := by decide
  exact ⟨hj, by norm_num, rfl, by rw [h.1.trans (congrArg some hs)],
    hs ▸ h.2 rfl⟩

/-- C10. The persisted Kaplan-Meier file name depends only on the
output path and the whitespace-stripped original label at the ranked
position: two distinct ranks among the first `k` whose stripped original
labels coincide are assigned the identical file path (so the later save
overwrites the earlier one), and the file-name list then contains a
duplicate — `k` distinct KM files exist only when the stripped labels
are pairwise distinct. -/
theorem km_name_collision {m n : ℕ} (A : FAArgs m n) (p : String)
    (k i j : ℕ) (oi oj : Fin n) (hik : i < k) (hjk : j < k) (hkn : k ≤ n)
    (hij : i ≠ j)
    (hoi : (faOrder A)[i]? = some oi) (hoj : (faOrder A)[j]? = some oj)
    (hlab : pyStrip (A.Symbols.getD oi.val "")
      = pyStrip (A.Symbols.getD oj.val "")) :
    (faKMNames p A k)[i]? = (faKMNames p A k)[j]?
    ∧ ¬ (faKMNames p A k).Nodup := by
  have hi := faKMNames_getElem? p A k i oi hik hoi
  have hj := faKMNames_getElem? p A k j oj hjk hoj
  have heq : (faKMNames p A k)[i]? = (faKMNames p A k)[j]? := by
    rw [hi, hj, hlab]
  refine ⟨heq, fun hnd => hij ?_⟩
  have hilen : i < (faKMNames p A k).length := by
    rw [length_faKMNames]
    omega
  exact List.getElem?_inj hilen hnd heq

/-- A 1 × 2 run whose two original labels both strip to `"TP53"`. -/
noncomputable def A10 : FAArgs 1 2 :=
  ⟨![![1, 0]], ![![5, 6]], [" TP53", "TP53 "], ["TP53", "TP53"], ["ta", "tb"],
   ["TP53", "TP53"], [1], [0], 2, 2, 2, 2, some ""⟩

theorem A10_order : faOrder A10 = [0, 1] := order_grad10 rfl

/-- C10 witness: ranks 0 and 1 of run `A10` carry the labels
`" TP53"` and `"TP53 "`, which strip to the same string, so the two KM
figures get the same file path and the name list has a duplicate. -/
theorem km_name_collision_witness :
    pyStrip (A10.Symbols.getD 0 "") = pyStrip (A10.Symbols.getD 1 "")
    ∧ (faKMNames "" A10 2)[0]? = (faKMNames "" A10 2)[1]?
    ∧ ¬ (faKMNames "" A10 2).Nodup := by
  have hoi : (faOrder A10)[0]? = some 0 := by rw [A10_order]; rfl
  have hoj : (faOrder A10)[1]? = some 1 := by rw [A10_order]; rfl
  have h := km_name_collision A10 "" 2 0 1 0 1 (by norm_num) (by norm_num)
    (by norm_num) (by norm_num) hoi hoj (by decide)
  exact ⟨by decide, h.1, h.2⟩

/-- The gradient matrix of the spec's 4-sample, 5-feature scenario. -/
noncomputable def G4 : Fin 4 → Fin 5 → ℝ :=
  ![![1, 0, 0, 0, 0], ![0, 2, 0, 0, 0], ![0, 0, 0, 0, 3], ![0, 0, 0, 4, 0]]

/-- The spec's scenario run: labels `a`–`e`, `boxplotCount = 2`. -/
noncomputable def A4 : FAArgs 4 5 :=
  ⟨G4, G4, ["a", "b", "c", "d", "e"], ["a", "b", "c", "d", "e"],
   ["t", "t", "t", "t", "t"], ["a", "b", "c", "d", "e"],
   [1, 1, 1, 1], [0, 0, 0, 0], 2, 2, 2, 2, some ""⟩

theorem G4_rowNorm0 : rowNorm G4 0 = 1 := by
  have h : ∑ j, (G4 0 j) ^ 2 = 1 := by
    rw [Fin.sum_univ_five]
    norm_num [G4, Matrix.vecHead, Matrix.vecTail]
  rw [rowNorm, h, Real.sqrt_one]

theorem G4_rowNorm1 : rowNorm G4 1 = 2 := by
  have h : ∑ j, (G4 1 j) ^ 2 = 4 := by
    rw [Fin.sum_univ_five]
    norm_num [G4, Matrix.vecHead, Matrix.vecTail]
  rw [rowNorm, h, show (4 : ℝ) = 2 ^ 2 by norm_num,
    Real.sqrt_sq (by norm_num : (0 : ℝ) ≤ 2)]

theorem G4_rowNorm2 : rowNorm G4 2 = 3 := by
  have h : ∑ j, (G4 2 j) ^ 2 = 9 := by
    rw [Fin.sum_univ_five]
    norm_num [G4, Matrix.vecHead, Matrix.vecTail]
  rw [rowNorm, h, show (9 : ℝ) = 3 ^ 2 by norm_num,
    Real.sqrt_sq (by norm_num : (0 : ℝ) ≤ 3)]

theorem G4_rowNorm3 : rowNorm G4 3 = 4 := by
  have h : ∑ j, (G4 3 j) ^ 2 = 16 := by
    rw [Fin.sum_univ_five]
    norm_num [G4, Matrix.vecHead, Matrix.vecTail]
  rw [rowNorm, h, show (16 : ℝ) = 4 ^ 2 by norm_num,
    Real.sqrt_sq (by norm_num : (0 : ℝ) ≤ 4)]

/-- The per-column means of the normalized scenario gradients: `1/4`
everywhere except column 2, whose mean is `0`. -/
noncomputable def mean4 : Fin 5 → ℝ := fun j => if j.val = 2 then 0 else 4⁻¹

theorem A4_means_apply (j : Fin 5) :
    faMeans A4 j
      = (G4 0 j / rowNorm G4 0 + G4 1 j / rowNorm G4 1
        + G4 2 j / rowNorm G4 2 + G4 3 j / rowNorm G4 3) / ((4 : ℕ) : ℝ) := by
  rw [show faMeans A4 j = (∑ i, faNormGrad A4 i j) / ((4 : ℕ) : ℝ) from rfl,
    Fin.sum_univ_four]
  rfl

theorem A4_means : faMeans A4 = mean4 := by
  funext j
  rw [A4_means_apply, G4_rowNorm0, G4_rowNorm1, G4_rowNorm2, G4_rowNorm3]
  fin_cases j <;> norm_num [G4, mean4, Matrix.vecHead, Matrix.vecTail]

theorem A4_order : faOrder A4 = [0, 1, 3, 4, 2] := by
  have m0 : mean4 0 = 4⁻¹ := if_neg (by decide)
  have m1 : mean4 1 = 4⁻¹ := if_neg (by decide)
  have m2 : mean4 2 = 0 := if_pos rfl
  have m3 : mean4 3 = 4⁻¹ := if_neg (by decide)
  have m4v : mean4 4 = 4⁻¹ := if_neg (by decide)
  have habs : |(4 : ℝ)⁻¹| = 4⁻¹ := abs_of_pos (by norm_num)
  have p34 : rankRel mean4 3 4 := Or.inr ⟨by rw [m3, m4v], by decide⟩
  have p13 : rankRel mean4 1 3 := Or.inr ⟨by rw [m1, m3], by decide⟩
  have p01 : rankRel mean4 0 1 := Or.inr ⟨by rw [m0, m1], by decide⟩
  have n23 : ¬ rankRel mean4 2 3 := by
    simp only [rankRel, m2, m3, habs, abs_zero]
    norm_num
  have n24 : ¬ rankRel mean4 2 4 := by
    simp only [rankRel, m2, m4v, habs, abs_zero]
    norm_num
  rw [show faOrder A4 = argsortAbsDesc (faMeans A4) from rfl, A4_means,
    argsortAbsDesc, show List.finRange 5 = [0, 1, 2, 3, 4] by decide]
  simp only [List.insertionSort, List.orderedInsert, if_pos p34, if_neg n23,
    if_neg n24, if_pos p13, if_pos p01]

theorem A4_symbols : facSymbols A4 = ["a", "b", "d", "e", "c"] := by
  rw [show facSymbols A4
    = (faOrder A4).map (fun j => A4.Wrapped.getD j.val "") from rfl, A4_order]
  rfl

theorem A4_types : facTypes A4 = ["t", "t", "t", "t", "t"] := by
  rw [show facTypes A4
    = (faOrder A4).map (fun j => A4.Types.getD j.val "") from rfl, A4_order]
  rfl

theorem A4_normGrad_entry11 : faNormGrad A4 1 1 = 1 := by
  rw [show faNormGrad A4 1 1 = G4 1 1 / rowNorm G4 1 from rfl, G4_rowNorm1]
  norm_num [G4, Matrix.vecHead, Matrix.vecTail]

/-- C4 counterexample: in the spec's 4 × 5 scenario, row-normalization
does NOT leave the rows unchanged (entry (1,1) becomes `1`, not `2`),
the per-column mean of column 3 is `1/4`, not the claimed `4/4`, and the
boxplot receives features `a` and `b`, not `d` and `e`. -/
theorem scenario_4x5_refutes_claim :
    faNormGrad A4 1 1 = 1 ∧ A4.Gradients 1 1 = 2
    ∧ faNormGrad A4 1 1 ≠ A4.Gradients 1 1
    ∧ faMeans A4 3 = 4⁻¹ ∧ faMeans A4 3 ≠ 4 / 4
    ∧ (faBoxCall A4).map (fun B => B.2.1) = some ["a", "b"]
    ∧ (["a", "b"] : List String) ≠ ["d", "e"] := by
  have hg : A4.Gradients 1 1 = 2 := by norm_num [A4, G4]
  have hm : faMeans A4 3 = 4⁻¹ := by
    rw [A4_means]
    exact if_neg (by decide)
  have hbox : (faBoxCall A4).map (fun B => B.2.1) = some ["a", "b"] := by
    have hs : pyCompSelect (facSymbols A4) A4.NBox = some ["a", "b"] := by
      rw [A4_symbols]
      rfl
    have ht : pyCompSelect (facTypes A4) A4.NBox = some ["t", "t"] := by
      rw [A4_types]
      rfl
    simp only [faBoxCall, hs, ht, Option.map_some']
  refine ⟨A4_normGrad_entry11, hg, ?_, hm, ?_, hbox, by simp⟩
  · rw [A4_normGrad_entry11, hg]
    norm_num
  · rw [hm]
    norm_num

/-- C4 (amended). In the spec's scenario, row-normalization rescales
each row to unit norm (so rows with norms 2, 3, 4 change: each nonzero
entry becomes 1); every nonzero column's importance mean is `1/4` (the
normalized entry divided by 4) and column `c` has mean 0; the Ordering
breaks the four-way tie by original index, giving `[0, 1, 3, 4, 2]`, so
labels `a` then `b` lead; and the boxplot receives exactly features `a`
and `b`, in that order. -/
theorem scenario_4x5_actual_behaviour :
    (faNormGrad A4 0 0 = 1 ∧ faNormGrad A4 1 1 = 1
      ∧ faNormGrad A4 2 4 = 1 ∧ faNormGrad A4 3 3 = 1)
    ∧ (faMeans A4 0 = 4⁻¹ ∧ faMeans A4 1 = 4⁻¹ ∧ faMeans A4 2 = 0
      ∧ faMeans A4 3 = 4⁻¹ ∧ faMeans A4 4 = 4⁻¹)
    ∧ faOrder A4 = [0, 1, 3, 4, 2]
    ∧ faBoxCall A4
      = some ((fun i => (facGradients A4 i).take 2), ["a", "b"], ["t", "t"]) := by
  have hmeans : ∀ j : Fin 5, faMeans A4 j = mean4 j := fun j => by rw [A4_means]
  refine ⟨⟨?_, A4_normGrad_entry11, ?_, ?_⟩, ⟨?_, ?_, ?_, ?_, ?_⟩, A4_order, ?_⟩
  · rw [show faNormGrad A4 0 0 = G4 0 0 / rowNorm G4 0 from rfl, G4_rowNorm0]
    norm_num [G4, Matrix.vecHead, Matrix.vecTail]
  · rw [show faNormGrad A4 2 4 = G4 2 4 / rowNorm G4 2 from rfl, G4_rowNorm2]
    norm_num [G4, Matrix.vecHead, Matrix.vecTail]
  · rw [show faNormGrad A4 3 3 = G4 3 3 / rowNorm G4 3 from rfl, G4_rowNorm3]
    norm_num [G4, Matrix.vecHead, Matrix.vecTail]
  · rw [hmeans 0]
    exact if_neg (by decide)
  · rw [hmeans 1]
    exact if_neg (by decide)
  · rw [hmeans 2]
    exact if_pos rfl
  · rw [hmeans 3]
    exact if_neg (by decide)
  · rw [hmeans 4]
    exact if_neg (by decide)
  · have hs : pyCompSelect (facSymbols A4) A4.NBox = some ["a", "b"] := by
      rw [A4_symbols]
      rfl
    have ht : pyCompSelect (facTypes A4) A4.NBox = some ["t", "t"] := by
      rw [A4_types]
      rfl
    have hgr : (fun i => pySlice (facGradients A4 i) A4.NBox)
        = fun i => (facGradients A4 i).take 2 := by
      funext i
      rw [show A4.NBox = (2 : Int) from rfl]
      rfl
    simp only [faBoxCall, hs, ht, hgr]

end SurvivalNet
